import Mathlib

/-!
Verification of the c4psycopg SQL statement-composition layer.

The development shallowly embeds `c4psycopg/queries.py` (statement composers
built on psycopg's `sql` composition objects) and the entity utilities of
`c4psycopg/ems/utils.py` together with the bind-value preparation performed by
`c4psycopg/ems/em.py`.

Modelling conventions:
* a psycopg `sql.Composed` is modelled as a flat list of atoms
  (`sql.SQL` text, `sql.Identifier`, `sql.Placeholder`, `sql.Literal`);
  psycopg renders a `Composed` as the concatenation of its parts, so the
  flattened form is rendering-equivalent;
* `sql.SQL(sep).join(items)` is `sepjoin`, interleaving the separator;
* rendering follows psycopg: identifiers are double-quoted with embedded
  quotes doubled, a positional placeholder renders as `%s`, a named one as
  `%(name)s`, and `sql.Literal` of an integer renders as its decimal text;
* Python dicts (entities, default-provider maps) are association lists with
  string keys; a zero-argument default provider is modelled by the value it
  returns;
* Python functions that can raise are embedded in `Except`, carrying the
  `KeyError` key or the `ValueError` message.
-/

namespace C4P

/-- A scalar value stored in an entity (a row's field value). -/
inductive Scalar where
  | int : Int → Scalar
  | str : String → Scalar
deriving DecidableEq, Repr

/-- A value passed to the driver in the bind-parameter sequence of
`cursor.execute`: either a scalar or a Python tuple of scalars (a whole
per-row tuple passed as a single element). -/
inductive BindVal where
  | scalar : Scalar → BindVal
  | row : List Scalar → BindVal
deriving DecidableEq, Repr

/-- One atom of a psycopg `sql` composition. -/
inductive SqlAtom where
  | raw : String → SqlAtom
  | ident : String → SqlAtom
  | ph : Option String → SqlAtom
  | lit : Int → SqlAtom
deriving DecidableEq, Repr

/-- A psycopg `sql.Composed`, flattened to its atoms. -/
abbrev Composed := List SqlAtom

/-- psycopg escapes a double quote inside an identifier by doubling it. -/
def escapeIdent (s : String) : String :=
  String.join (s.data.map fun c =>
    if c = '"' then "\x22\x22" else String.singleton c)

/-- Rendering of one atom, as psycopg `as_string` does. -/
def render1 : SqlAtom → String
  | .raw s => s
  | .ident s => "\x22" ++ escapeIdent s ++ "\x22"
  | .ph Option.none => "%s"
  | .ph (some n) => "%(" ++ n ++ ")s"
  | .lit i => toString i

/-- Rendering of a composition: concatenation of its atoms. -/
def render : Composed → String
  | [] => ""
  | a :: rest => render1 a ++ render rest

/-- Number of placeholder slots (named or positional) in a composition. -/
def phCount (c : Composed) : Nat :=
  c.countP fun a => match a with | .ph _ => true | _ => false

/-- `sql.SQL(sep).join(items)`: the items interleaved with the separator. -/
def sepjoin (sep : Composed) : List Composed → Composed
  | [] => []
  | [x] => x
  | x :: y :: rest => x ++ sep ++ sepjoin sep (y :: rest)

/-! Embedding of `c4psycopg/queries.py`. -/

/-- `rows_with_phs(rows, phs)`: `(%s,...),(%s,...),...` value groups. -/
def rows_with_phs (rows phs : Nat) : Composed :=
  let row : Composed :=
    [SqlAtom.raw "("]
      ++ sepjoin [SqlAtom.raw ","] (List.replicate phs [SqlAtom.ph Option.none])
      ++ [SqlAtom.raw ")"]
  sepjoin [SqlAtom.raw ","] (List.replicate rows row)

/-- `rows_with_phs_and_defaults(columns, defaults_per_entity)`: one value
group per entity, each column rendered as `DEFAULT` when listed in that
entity's defaults, otherwise a positional placeholder. -/
def rows_with_phs_and_defaults (columns : List String)
    (defaults_per_entity : List (List String)) : Composed :=
  sepjoin [SqlAtom.raw ","]
    (defaults_per_entity.map fun defaults =>
      [SqlAtom.raw "("]
        ++ sepjoin [SqlAtom.raw ","]
          (columns.map fun column =>
            if column ∈ defaults then [SqlAtom.raw "DEFAULT"]
            else [SqlAtom.ph Option.none])
        ++ [SqlAtom.raw ")"])

/-- `csplaceholders(columns, defaults, named_phs)`: comma separated
placeholders, a `DEFAULT` keyword for each column listed in `defaults`. -/
def csplaceholders (columns : List String) (defaults : Option (List String))
    (named_phs : Bool) : Composed :=
  let ds := match defaults with
    | Option.none => []
    | some d => d
  if named_phs then
    sepjoin [SqlAtom.raw ","]
      (columns.map fun column =>
        if column ∈ ds then [SqlAtom.raw "DEFAULT"]
        else [SqlAtom.ph (some column)])
  else
    sepjoin [SqlAtom.raw ","]
      (columns.map fun column =>
        if column ∈ ds then [SqlAtom.raw "DEFAULT"]
        else [SqlAtom.ph Option.none])

/-- `csidentifiers(columns)`: comma separated quoted identifiers. -/
def csidentifiers (columns : List String) : Composed :=
  sepjoin [SqlAtom.raw ","] (columns.map fun column => [SqlAtom.ident column])

/-- `insert(table, columns, defaults, returning, named_phs)`. The source
appends `" RETURNING {columns}"` to the template, reusing the same
`columns` parameter as the insert column list. -/
def insert (table : String) (columns : List String)
    (defaults : Option (List String)) (returning named_phs : Bool) : Composed :=
  let base : Composed :=
    [SqlAtom.raw "INSERT INTO ", SqlAtom.ident table, SqlAtom.raw " ("]
      ++ csidentifiers columns
      ++ [SqlAtom.raw ") VALUES ("]
      ++ csplaceholders columns defaults named_phs
      ++ [SqlAtom.raw ")"]
  if returning then base ++ [SqlAtom.raw " RETURNING "] ++ csidentifiers columns
  else base

/-- `insert_many(table, columns, qty, defaults_per_entity, returning)`.
The source picks the defaults-aware value groups only when
`defaults_per_entity` is truthy (not `None` and not the empty tuple). -/
def insert_many (table : String) (columns : List String) (qty : Nat)
    (defaults_per_entity : Option (List (List String)))
    (returning : Bool) : Composed :=
  let phs := match defaults_per_entity with
    | some dpe =>
        if dpe.isEmpty then rows_with_phs qty columns.length
        else rows_with_phs_and_defaults columns dpe
    | Option.none => rows_with_phs qty columns.length
  let base : Composed :=
    [SqlAtom.raw "INSERT INTO ", SqlAtom.ident table, SqlAtom.raw " ("]
      ++ csidentifiers columns
      ++ [SqlAtom.raw ") VALUES "]
      ++ phs
  if returning then base ++ [SqlAtom.raw " RETURNING "] ++ csidentifiers columns
  else base

/-- `select_by_pk(table, pk_column, columns, named_phs)`. -/
def select_by_pk (table pk_column : String) (columns : List String)
    (named_phs : Bool) : Composed :=
  [SqlAtom.raw "SELECT "]
    ++ csidentifiers columns
    ++ [SqlAtom.raw " FROM ", SqlAtom.ident table,
        SqlAtom.raw " WHERE ", SqlAtom.ident pk_column, SqlAtom.raw " = ",
        if named_phs then SqlAtom.ph (some pk_column) else SqlAtom.ph Option.none]

/-- Python truthiness of the `limit` / `offset` arguments: the source guards
each clause with `if limit:` / `if offset:`, which is false exactly for
`None` and `0`. -/
def truthyInt : Option Int → Bool
  | Option.none => false
  | some v => v != 0

/-- The fixed part of `select_many_by_pk`, before the optional clauses. -/
def smbpBase (table pk_column : String) (columns : List String)
    (named_phs : Bool) : Composed :=
  [SqlAtom.raw "SELECT "]
    ++ csidentifiers columns
    ++ [SqlAtom.raw " FROM ", SqlAtom.ident table,
        SqlAtom.raw " WHERE ", SqlAtom.ident pk_column, SqlAtom.raw " = ANY(",
        if named_phs then SqlAtom.ph (some pk_column) else SqlAtom.ph Option.none,
        SqlAtom.raw ")"]

/-- `select_many_by_pk(table, pk_column, columns, order_by, limit, offset,
named_phs)`. A supplied `order_by` composition is always truthy in the
source; `limit` and `offset` go through Python truthiness. -/
def select_many_by_pk (table pk_column : String) (columns : List String)
    (order_by : Option Composed) (limit offset : Option Int)
    (named_phs : Bool) : Composed :=
  smbpBase table pk_column columns named_phs
    ++ (match order_by with
        | some o => [SqlAtom.raw " ORDER BY "] ++ o
        | Option.none => [])
    ++ (if truthyInt limit then [SqlAtom.raw " LIMIT ", SqlAtom.lit (limit.getD 0)]
        else [])
    ++ (if truthyInt offset then [SqlAtom.raw " OFFSET ", SqlAtom.lit (offset.getD 0)]
        else [])

/-- The fixed part of `select_many_by_cpk`, before the optional clauses. -/
def smbcBase (table : String) (pk_columns columns : List String)
    (qty : Nat) : Composed :=
  [SqlAtom.raw "SELECT "]
    ++ csidentifiers columns
    ++ [SqlAtom.raw " FROM ", SqlAtom.ident table, SqlAtom.raw " WHERE ("]
    ++ csidentifiers pk_columns
    ++ [SqlAtom.raw ") IN ("]
    ++ rows_with_phs qty pk_columns.length
    ++ [SqlAtom.raw ")"]

/-- `select_many_by_cpk(table, pk_columns, columns, qty, order_by, limit,
offset)`. -/
def select_many_by_cpk (table : String) (pk_columns columns : List String)
    (qty : Nat) (order_by : Option Composed)
    (limit offset : Option Int) : Composed :=
  smbcBase table pk_columns columns qty
    ++ (match order_by with
        | some o => [SqlAtom.raw " ORDER BY "] ++ o
        | Option.none => [])
    ++ (if truthyInt limit then [SqlAtom.raw " LIMIT ", SqlAtom.lit (limit.getD 0)]
        else [])
    ++ (if truthyInt offset then [SqlAtom.raw " OFFSET ", SqlAtom.lit (offset.getD 0)]
        else [])

/-- The message of the `ValueError` the delete composers raise when
`returning=True` comes with `columns=None`. -/
def returningNeedsColumnsMsg : String :=
  "If returning is True, columns must be specified."

/-- The fixed part of `delete_by_pk`. -/
def dbpBase (table pk_column : String) (named_phs : Bool) : Composed :=
  [SqlAtom.raw "DELETE FROM ", SqlAtom.ident table,
   SqlAtom.raw " WHERE ", SqlAtom.ident pk_column, SqlAtom.raw " = ",
   if named_phs then SqlAtom.ph (some pk_column) else SqlAtom.ph Option.none]

/-- `delete_by_pk(table, pk_column, returning, columns, named_phs)`; raises
`ValueError` before formatting any statement when `returning` is requested
without `columns`. -/
def delete_by_pk (table pk_column : String) (returning : Bool)
    (columns : Option (List String)) (named_phs : Bool) :
    Except String Composed :=
  if returning then
    match columns with
    | Option.none => .error returningNeedsColumnsMsg
    | some cols =>
        .ok (dbpBase table pk_column named_phs
          ++ [SqlAtom.raw " RETURNING "] ++ csidentifiers cols)
  else .ok (dbpBase table pk_column named_phs)

/-- The fixed part of `delete_many_by_pk`. -/
def dmbpBase (table pk_column : String) (named_phs : Bool) : Composed :=
  [SqlAtom.raw "DELETE FROM ", SqlAtom.ident table,
   SqlAtom.raw " WHERE ", SqlAtom.ident pk_column, SqlAtom.raw " = ANY(",
   if named_phs then SqlAtom.ph (some pk_column) else SqlAtom.ph Option.none,
   SqlAtom.raw ")"]

/-- `delete_many_by_pk(table, pk_column, returning, columns, named_phs)`. -/
def delete_many_by_pk (table pk_column : String) (returning : Bool)
    (columns : Option (List String)) (named_phs : Bool) :
    Except String Composed :=
  if returning then
    match columns with
    | Option.none => .error returningNeedsColumnsMsg
    | some cols =>
        .ok (dmbpBase table pk_column named_phs
          ++ [SqlAtom.raw " RETURNING "] ++ csidentifiers cols)
  else .ok (dmbpBase table pk_column named_phs)

/-- The fixed part of `delete_by_cpk`. -/
def dbcBase (table : String) (pk_columns : List String)
    (named_phs : Bool) : Composed :=
  [SqlAtom.raw "DELETE FROM ", SqlAtom.ident table, SqlAtom.raw " WHERE ("]
    ++ csidentifiers pk_columns
    ++ [SqlAtom.raw ") = ("]
    ++ csplaceholders pk_columns Option.none named_phs
    ++ [SqlAtom.raw ")"]

/-- `delete_by_cpk(table, pk_columns, returning, columns, named_phs)`. -/
def delete_by_cpk (table : String) (pk_columns : List String)
    (returning : Bool) (columns : Option (List String)) (named_phs : Bool) :
    Except String Composed :=
  if returning then
    match columns with
    | Option.none => .error returningNeedsColumnsMsg
    | some cols =>
        .ok (dbcBase table pk_columns named_phs
          ++ [SqlAtom.raw " RETURNING "] ++ csidentifiers cols)
  else .ok (dbcBase table pk_columns named_phs)

/-- The fixed part of `delete_many_by_cpk`. -/
def dmbcBase (table : String) (pk_columns : List String)
    (qty : Nat) : Composed :=
  [SqlAtom.raw "DELETE FROM ", SqlAtom.ident table, SqlAtom.raw " WHERE ("]
    ++ csidentifiers pk_columns
    ++ [SqlAtom.raw ") IN ("]
    ++ rows_with_phs qty pk_columns.length
    ++ [SqlAtom.raw ")"]

/-- `delete_many_by_cpk(table, pk_columns, qty, returning, columns)`. -/
def delete_many_by_cpk (table : String) (pk_columns : List String)
    (qty : Nat) (returning : Bool) (columns : Option (List String)) :
    Except String Composed :=
  if returning then
    match columns with
    | Option.none => .error returningNeedsColumnsMsg
    | some cols =>
        .ok (dmbcBase table pk_columns qty
          ++ [SqlAtom.raw " RETURNING "] ++ csidentifiers cols)
  else .ok (dmbcBase table pk_columns qty)

/-! The memoization layer of `c4psycopg/queries.py`: which module-level
Statement Composer / Formatter functions are defined under the
`functools.cache` decorator. -/

/-- The Statement Composer and Formatter functions defined at module level
in `c4psycopg/queries.py` (the four `update*cpk` stubs with empty bodies are
omitted). -/
inductive QFunc where
  | commas
  | rows_with_phs
  | rows_with_phs_and_defaults
  | columns_with_phs
  | csplaceholders
  | csidentifiers
  | ob
  | insert
  | insert_many
  | select_by_pk
  | select_many_by_pk
  | select_by_cpk
  | select_many_by_cpk
  | update_by_pk
  | update_many_by_pk
  | delete_by_pk
  | delete_many_by_pk
  | delete_by_cpk
  | delete_many_by_cpk
deriving DecidableEq, Repr

/-- Whether the function's `def` in `c4psycopg/queries.py` carries the
`@functools.cache` decorator (the module's memoization mechanism). -/
def hasFunctoolsCache : QFunc → Bool
  | .rows_with_phs => true
  | .rows_with_phs_and_defaults => true
  | .columns_with_phs => true
  | .csplaceholders => true
  | .csidentifiers => true
  | .ob => true
  | .insert => true
  | _ => false

/-! Embedding of `c4psycopg/ems/utils.py` and of the bind-value preparation
in `c4psycopg/ems/em.py`. -/

/-- An entity: a Python dict from column name to value, as an ordered
association list (Python dicts preserve insertion order). -/
abbrev Entity := List (String × Scalar)

/-- Dict membership / subscript lookup. -/
def lookupEntity (entity : List (String × Scalar)) (key : String) :
    Option Scalar :=
  (entity.find? fun p => p.1 = key).map fun p => p.2

/-- `entity2tuple(columns, entity, incomplete)`: the entity's values ordered
by `columns`. With `incomplete=True` absent columns are skipped; with
`incomplete=False` the `reduce` raises `KeyError` at the first absent
column (the error carries that column name). -/
def entity2tuple (columns : List String) (entity : Entity)
    (incomplete : Bool) : Except String (List Scalar) :=
  if incomplete then
    .ok (columns.foldl
      (fun t c =>
        t ++ (match lookupEntity entity c with
              | some v => [v]
              | Option.none => []))
      [])
  else
    columns.foldl
      (fun t c =>
        t.bind fun acc =>
          match lookupEntity entity c with
          | some v => .ok (acc ++ [v])
          | Option.none => .error c)
      (.ok [])

/-- `missing_values(incomplete_entity, entity_columns, entity_defaults)`:
the dict comprehension collecting `column: entity_defaults[column]()` for
each column absent from the entity and present in the provider map. A
provider is modelled by the value its zero-argument callable returns. -/
def missing_values (incomplete_entity : Entity) (entity_columns : List String)
    (entity_defaults : List (String × Scalar)) : Entity :=
  entity_columns.filterMap fun column =>
    if lookupEntity incomplete_entity column = Option.none then
      (lookupEntity entity_defaults column).map fun v => (column, v)
    else Option.none

/-- The columns whose default provider the comprehension in
`missing_values` calls: exactly those that pass its filter condition
(absent from the entity and present in the provider map). -/
def missing_values_invoked (incomplete_entity : Entity)
    (entity_columns : List String)
    (entity_defaults : List (String × Scalar)) : List String :=
  entity_columns.filter fun column =>
    (lookupEntity incomplete_entity column).isNone
      && (lookupEntity entity_defaults column).isSome

/-- Python `dict.update`: existing keys keep their position and take the
new value; keys new to the receiver are appended in the argument's order. -/
def dictUpdate (entity mv : Entity) : Entity :=
  (entity.map fun p =>
    match lookupEntity mv p.1 with
    | some v => (p.1, v)
    | Option.none => p)
    ++ mv.filter fun p => lookupEntity entity p.1 = Option.none

/-- Result of a call to `EntityManager.add_defaults`: the entity after the
in-place `update`, and the method's return value. -/
structure AddDefaultsResult where
  entity : Entity
  ret : Option Entity
deriving DecidableEq, Repr

/-- `EntityManager.add_defaults(entity)`: merges
`missing_values(entity, self.columns, self.defaults)` into the entity in
place. The method body has no `return` statement, so its return value is
`None`. -/
def add_defaults (columns : List String)
    (defaults : List (String × Scalar)) (entity : Entity) :
    AddDefaultsResult :=
  let mv := missing_values entity columns defaults
  ⟨dictUpdate entity mv, Option.none⟩

/-- Sequential effectful map over `Except`: models consuming a lazy Python
`map` whose first raised exception propagates. -/
def mapExcept (f : α → Except ε β) : List α → Except ε (List β)
  | [] => .ok []
  | x :: xs =>
    match f x with
    | .error e => .error e
    | .ok b =>
      match mapExcept f xs with
      | .error e => .error e
      | .ok bs => .ok (b :: bs)

/-- The error raised by `EntityManager.create_many` while preparing bind
values: either the translated `ValueError` naming a missing column of the
manager, or the re-raised `KeyError`. -/
inductive CreateManyError where
  | valueErrorMissingColumn : String → CreateManyError
  | keyError : String → CreateManyError
deriving DecidableEq, Repr

/-- Outcome of `EntityManager.create_many` up to the driver boundary: the
raised error if any, and the statement/bind-values pair passed to
`cursor.execute` when execution is reached. -/
structure CreateManyOutcome where
  error : Option CreateManyError
  executed : Option (Composed × List BindVal)
deriving DecidableEq, Repr

/-- The `use_defaults=False` path of `EntityManager.create_many`: composes
the fully parameterized multi-row INSERT for `len(entities)` rows, converts
each entity with `entity2tuple(self.columns, e, incomplete=False)`, and
passes `tuple(itertools.chain(tuple_entities))` to `cursor.execute`.
`itertools.chain` applied to the single iterable `tuple_entities` yields
the per-entity tuples themselves, so each bind value is a whole row tuple.
A `KeyError` raised during the conversion is translated to a `ValueError`
naming the column when the key is one of the manager's columns; either way
it is raised before `cursor.execute` is called. -/
def create_many_nodefaults (table : String) (columns : List String)
    (entities : List Entity) (returning : Bool) : CreateManyOutcome :=
  let q := insert_many table columns entities.length Option.none returning
  match mapExcept (fun e => entity2tuple columns e false) entities with
  | .error mc =>
      if mc ∈ columns then ⟨some (.valueErrorMissingColumn mc), Option.none⟩
      else ⟨some (.keyError mc), Option.none⟩
  | .ok ts => ⟨Option.none, some (q, ts.map BindVal.row)⟩

/-- What the spec says `create_many` binds for the `use_defaults=False`
path: the flattened concatenation of the per-row value sequences, in row
order. Modelled from the spec sentence for comparison with the source
behaviour above. -/
def create_many_flattened_values (columns : List String)
    (entities : List Entity) : Except String (List BindVal) :=
  match mapExcept (fun e => entity2tuple columns e false) entities with
  | .error mc => .error mc
  | .ok ts => .ok (ts.flatten.map BindVal.scalar)

/-! ### Helper lemmas about rendering and placeholder counting -/

theorem phCount_append (a b : Composed) :
    phCount (a ++ b) = phCount a + phCount b := by
  simp [phCount, List.countP_append]

theorem phCount_raw_comma : phCount [SqlAtom.raw ","] = 0 := rfl

theorem phCount_sepjoin_comma (items : List Composed) :
    phCount (sepjoin [SqlAtom.raw ","] items) = (items.map phCount).sum := by
  induction items with
  | nil => rfl
  | cons x xs ih =>
    cases xs with
    | nil => simp [sepjoin]
    | cons y ys =>
      simp only [sepjoin, phCount_append, List.map_cons, List.sum_cons] at ih ⊢
      rw [ih]
      simp [phCount]

theorem phCount_nil : phCount [] = 0 := rfl

theorem phCount_cons_raw (s : String) (l : Composed) :
    phCount (SqlAtom.raw s :: l) = phCount l := by
  simp [phCount, List.countP_cons]

theorem phCount_cons_ident (s : String) (l : Composed) :
    phCount (SqlAtom.ident s :: l) = phCount l := by
  simp [phCount, List.countP_cons]

theorem phCount_cons_ph (o : Option String) (l : Composed) :
    phCount (SqlAtom.ph o :: l) = phCount l + 1 := by
  simp [phCount, List.countP_cons]

theorem phCount_csidentifiers (cols : List String) :
    phCount (csidentifiers cols) = 0 := by
  rw [csidentifiers, phCount_sepjoin_comma]
  apply List.sum_eq_zero
  intro n hn
  simp only [List.map_map, List.mem_map] at hn
  obtain ⟨c, _, hc⟩ := hn
  simp [phCount] at hc
  omega

theorem sum_if_default_eq_filter_length (cols ds : List String) :
    (cols.map fun c => if c ∈ ds then 0 else 1).sum =
      (cols.filter fun c => decide (c ∉ ds)).length := by
  induction cols with
  | nil => rfl
  | cons c cs ih =>
    by_cases h : c ∈ ds
    · simp [h, List.filter_cons, ih]
    · simp [h, List.filter_cons, ih]
      omega

theorem phCount_csplaceholders (cols ds : List String) (named : Bool) :
    phCount (csplaceholders cols (some ds) named) =
      (cols.filter fun c => decide (c ∉ ds)).length := by
  rw [← sum_if_default_eq_filter_length cols ds]
  cases named
  · show phCount (sepjoin [SqlAtom.raw ","]
        (cols.map fun column =>
          if column ∈ ds then [SqlAtom.raw "DEFAULT"]
          else [SqlAtom.ph Option.none])) = _
    rw [phCount_sepjoin_comma, List.map_map]
    congr 1
    apply List.map_congr_left
    intro c _
    by_cases h : c ∈ ds <;> simp [h, Function.comp, phCount]
  · show phCount (sepjoin [SqlAtom.raw ","]
        (cols.map fun column =>
          if column ∈ ds then [SqlAtom.raw "DEFAULT"]
          else [SqlAtom.ph (some column)])) = _
    rw [phCount_sepjoin_comma, List.map_map]
    congr 1
    apply List.map_congr_left
    intro c _
    by_cases h : c ∈ ds <;> simp [h, Function.comp, phCount]

theorem phCount_insert (t : String) (cols ds : List String)
    (ret named : Bool) :
    phCount (insert t cols (some ds) ret named) =
      (cols.filter fun c => decide (c ∉ ds)).length := by
  cases ret <;>
    simp [insert, phCount_append, phCount_cons_raw, phCount_cons_ident,
      phCount_nil, phCount_csidentifiers, phCount_csplaceholders]

/-! ### Claim theorems -/

/-- Claim C1: the call
`insert("customer", ("customerid","name","email"), defaults=("customerid",),
returning=True, named_phs=False)` renders the table and every column as
quoted identifiers in input order, puts the literal `DEFAULT` token in the
position of each defaulted column and a positional placeholder in every
other position, appends a `RETURNING` clause listing the same column
identifiers in the same order, and in general the number of placeholder
slots of such an insert equals the number of non-default columns (here 2). -/
theorem insert_defaults_positional_returning :
    render (insert "customer" ["customerid", "name", "email"]
        (some ["customerid"]) true false) =
      "INSERT INTO \"customer\" (\"customerid\",\"name\",\"email\") VALUES (DEFAULT,%s,%s) RETURNING \"customerid\",\"name\",\"email\""
  ∧ phCount (insert "customer" ["customerid", "name", "email"]
        (some ["customerid"]) true false) = 2
  ∧ (∀ (t : String) (cols ds : List String) (ret named : Bool),
      phCount (insert t cols (some ds) ret named) =
        (cols.filter fun c => decide (c ∉ ds)).length) := by
  refine ⟨by decide, by decide, ?_⟩
  intro t cols ds ret named
  exact phCount_insert t cols ds ret named

/-- Claim C3: each of the four delete composers raises the usage error
naming the `columns` argument when `returning=True` comes with
`columns=None`, before composing any statement; with a column tuple
supplied it succeeds and the statement is the base statement followed by a
`RETURNING` clause listing exactly those columns; with `returning=False`
the `RETURNING` clause is absent and no columns are required. -/
theorem delete_returning_contract :
    (∀ (t k : String) (n : Bool),
      delete_by_pk t k true Option.none n = .error returningNeedsColumnsMsg)
  ∧ (∀ (t k : String) (n : Bool),
      delete_many_by_pk t k true Option.none n =
        .error returningNeedsColumnsMsg)
  ∧ (∀ (t : String) (ks : List String) (n : Bool),
      delete_by_cpk t ks true Option.none n =
        .error returningNeedsColumnsMsg)
  ∧ (∀ (t : String) (ks : List String) (qty : Nat),
      delete_many_by_cpk t ks qty true Option.none =
        .error returningNeedsColumnsMsg)
  ∧ (∀ (t k : String) (cols : List String) (n : Bool),
      delete_by_pk t k true (some cols) n =
        .ok (dbpBase t k n ++ [SqlAtom.raw " RETURNING "]
          ++ csidentifiers cols))
  ∧ (∀ (t k : String) (cols : List String) (n : Bool),
      delete_many_by_pk t k true (some cols) n =
        .ok (dmbpBase t k n ++ [SqlAtom.raw " RETURNING "]
          ++ csidentifiers cols))
  ∧ (∀ (t : String) (ks cols : List String) (n : Bool),
      delete_by_cpk t ks true (some cols) n =
        .ok (dbcBase t ks n ++ [SqlAtom.raw " RETURNING "]
          ++ csidentifiers cols))
  ∧ (∀ (t : String) (ks cols : List String) (qty : Nat),
      delete_many_by_cpk t ks qty true (some cols) =
        .ok (dmbcBase t ks qty ++ [SqlAtom.raw " RETURNING "]
          ++ csidentifiers cols))
  ∧ (∀ (t k : String) (copt : Option (List String)) (n : Bool),
      delete_by_pk t k false copt n = .ok (dbpBase t k n))
  ∧ (∀ (t k : String) (copt : Option (List String)) (n : Bool),
      delete_many_by_pk t k false copt n = .ok (dmbpBase t k n))
  ∧ (∀ (t : String) (ks : List String) (copt : Option (List String))
        (n : Bool),
      delete_by_cpk t ks false copt n = .ok (dbcBase t ks n))
  ∧ (∀ (t : String) (ks : List String) (qty : Nat)
        (copt : Option (List String)),
      delete_many_by_cpk t ks qty false copt = .ok (dmbcBase t ks qty))
  ∧ render ((delete_by_pk "customer" "customerid" true
        (some ["customerid", "name"]) false).toOption.getD []) =
      "DELETE FROM \"customer\" WHERE \"customerid\" = %s RETURNING \"customerid\",\"name\"" := by
  exact ⟨fun t k n => rfl, fun t k n => rfl, fun t ks n => rfl,
    fun t ks qty => rfl, fun t k cols n => rfl, fun t k cols n => rfl,
    fun t ks cols n => rfl, fun t ks cols qty => rfl,
    fun t k copt n => rfl, fun t k copt n => rfl, fun t ks copt n => rfl,
    fun t ks qty copt => rfl, by decide⟩

/-- Claim C10: `rows_with_phs(0, n)` is an empty composition, so
`insert_many(table, columns, qty=0)` without `defaults_per_entity` succeeds
and renders the statement with nothing after `VALUES `; and passing the
empty tuple as `defaults_per_entity` falls back to the qty-based fully
parameterized form. -/
theorem insert_many_zero_rows :
    (∀ n : Nat, rows_with_phs 0 n = [])
  ∧ (∀ (t : String) (cols : List String) (qty : Nat) (ret : Bool),
      insert_many t cols qty (some []) ret =
        insert_many t cols qty Option.none ret)
  ∧ (∀ (t : String) (cols : List String),
      insert_many t cols 0 Option.none false =
        [SqlAtom.raw "INSERT INTO ", SqlAtom.ident t, SqlAtom.raw " ("]
          ++ csidentifiers cols ++ [SqlAtom.raw ") VALUES "])
  ∧ render (insert_many "customer" ["a", "b"] 0 Option.none false) =
      "INSERT INTO \"customer\" (\"a\",\"b\") VALUES " := by
  refine ⟨fun n => rfl, fun t cols qty ret => rfl, ?_, by decide⟩
  intro t cols
  simp [insert_many, rows_with_phs, sepjoin]

/-- Claim C4 counterexample: the source guards the LIMIT clause with Python
truthiness, so the provided non-positive limit `-1` still renders a
`LIMIT -1` clause; it is not the case that every provided limit `≤ 0`
produces the same statement as no limit at all. -/
theorem negative_limit_renders_clause :
    render (select_many_by_pk "customer" "customerid" ["customerid", "name"]
        Option.none (some (-1)) Option.none false) =
      "SELECT \"customerid\",\"name\" FROM \"customer\" WHERE \"customerid\" = ANY(%s) LIMIT -1"
  ∧ ¬ (∀ v : Int, v ≤ 0 →
      select_many_by_pk "customer" "customerid" ["customerid", "name"]
          Option.none (some v) Option.none false =
        select_many_by_pk "customer" "customerid" ["customerid", "name"]
          Option.none Option.none Option.none false) := by
  refine ⟨by decide, fun h => ?_⟩
  have h2 := h (-1) (by decide)
  exact absurd h2 (by decide)

/-- Claim C4 amended: the LIMIT clause appears in the composed statement if
and only if `limit` is provided and nonzero, and likewise OFFSET; `None`
and `0` are omitted (never rendered as `LIMIT 0`), a nonzero value renders
as a literal integer after the clause keyword, and limit 5 with offset 4
render as `LIMIT 5 OFFSET 4`. -/
theorem limit_offset_nonzero_clauses :
    (∀ (t k : String) (cols : List String) (oby : Option Composed)
        (off : Option Int) (n : Bool),
      select_many_by_pk t k cols oby (some 0) off n =
        select_many_by_pk t k cols oby Option.none off n)
  ∧ (∀ (t k : String) (cols : List String) (oby : Option Composed)
        (lim : Option Int) (n : Bool),
      select_many_by_pk t k cols oby lim (some 0) n =
        select_many_by_pk t k cols oby lim Option.none n)
  ∧ (∀ (t k : String) (cols : List String) (n : Bool) (v : Int),
      v ≠ 0 →
      select_many_by_pk t k cols Option.none (some v) Option.none n =
        smbpBase t k cols n ++ [SqlAtom.raw " LIMIT ", SqlAtom.lit v])
  ∧ (∀ (t k : String) (cols : List String) (n : Bool) (w : Int),
      w ≠ 0 →
      select_many_by_pk t k cols Option.none Option.none (some w) n =
        smbpBase t k cols n ++ [SqlAtom.raw " OFFSET ", SqlAtom.lit w])
  ∧ (∀ (t : String) (ks cols : List String) (qty : Nat)
        (oby : Option Composed) (off : Option Int),
      select_many_by_cpk t ks cols qty oby (some 0) off =
        select_many_by_cpk t ks cols qty oby Option.none off)
  ∧ (∀ (t : String) (ks cols : List String) (qty : Nat)
        (oby : Option Composed) (lim : Option Int),
      select_many_by_cpk t ks cols qty oby lim (some 0) =
        select_many_by_cpk t ks cols qty oby lim Option.none)
  ∧ render (select_many_by_pk "customer" "customerid" ["customerid", "name"]
        Option.none (some 5) (some 4) false) =
      "SELECT \"customerid\",\"name\" FROM \"customer\" WHERE \"customerid\" = ANY(%s) LIMIT 5 OFFSET 4" := by
  refine ⟨fun t k cols oby off n => rfl, fun t k cols oby lim n => rfl,
    ?_, ?_, fun t ks cols qty oby off => rfl,
    fun t ks cols qty oby lim => rfl, by decide⟩
  · intro t k cols n v hv
    have hb : (v != 0) = true := by simpa using hv
    simp [select_many_by_pk, truthyInt, hb]
  · intro t k cols n w hw
    have hb : (w != 0) = true := by simpa using hw
    simp [select_many_by_pk, truthyInt, hb]

/-- Witness for the amended C4 theorem at a concrete input: limit 7 on the
customer table renders as a trailing `LIMIT 7` clause. -/
theorem limit_offset_nonzero_clauses_witness :
    select_many_by_pk "customer" "customerid" ["customerid", "name"]
        Option.none (some 7) Option.none false =
      smbpBase "customer" "customerid" ["customerid", "name"] false
        ++ [SqlAtom.raw " LIMIT ", SqlAtom.lit 7] :=
  limit_offset_nonzero_clauses.2.2.1 "customer" "customerid"
    ["customerid", "name"] false 7 (by decide)

/-- Claim C5 counterexample: not every Statement Composer and Formatter
function of the queries module carries the `functools.cache` memoization
decorator; `select_by_pk` does not. -/
theorem not_all_composers_cached :
    ¬ (∀ f : QFunc, hasFunctoolsCache f = true) := by
  intro h
  exact absurd (h QFunc.select_by_pk) (by decide)

/-- Claim C5 amended: exactly the formatter helpers `rows_with_phs`,
`rows_with_phs_and_defaults`, `columns_with_phs`, `csplaceholders`,
`csidentifiers` and `ob`, together with the single-row composer `insert`,
are memoized with `functools.cache`; `commas`, `insert_many` and all the
select, update and delete composers are recomputed on every call. -/
theorem cached_composers_characterization :
    ∀ f : QFunc, hasFunctoolsCache f = true ↔
      (f = QFunc.rows_with_phs ∨ f = QFunc.rows_with_phs_and_defaults ∨
       f = QFunc.columns_with_phs ∨ f = QFunc.csplaceholders ∨
       f = QFunc.csidentifiers ∨ f = QFunc.ob ∨ f = QFunc.insert) := by
  intro f
  cases f <;> decide

/-! ### Helper lemmas about entity2tuple and mapExcept -/

/-- The step function of the strict (`incomplete=False`) fold of
`entity2tuple`. -/
def strictStep (entity : Entity) (t : Except String (List Scalar))
    (c : String) : Except String (List Scalar) :=
  t.bind fun acc =>
    match lookupEntity entity c with
    | some v => .ok (acc ++ [v])
    | Option.none => .error c

theorem entity2tuple_false_eq_foldl (columns : List String)
    (entity : Entity) :
    entity2tuple columns entity false =
      columns.foldl (strictStep entity) (.ok []) := rfl

theorem foldl_strictStep_error (entity : Entity) (m : String) :
    ∀ cols : List String,
      cols.foldl (strictStep entity) (.error m) = .error m := by
  intro cols
  induction cols with
  | nil => rfl
  | cons c cs ih => exact ih

theorem foldl_strictStep_first_missing (entity : Entity) (c : String) :
    ∀ (cols : List String) (acc : List Scalar),
      c ∈ cols → lookupEntity entity c = Option.none →
      (∀ x ∈ cols, lookupEntity entity x = Option.none → x = c) →
      cols.foldl (strictStep entity) (.ok acc) = .error c := by
  intro cols
  induction cols with
  | nil => intro acc hc _ _; exact absurd hc (List.not_mem_nil c)
  | cons h hs ih =>
    intro acc hc hnone huniq
    cases hl : lookupEntity entity h with
    | none =>
      have heq : h = c := huniq h (List.mem_cons_self h hs) hl
      subst heq
      have : strictStep entity (.ok acc) h = .error h := by
        simp [strictStep, Except.bind, hl]
      rw [List.foldl_cons, this]
      exact foldl_strictStep_error entity h hs
    | some v =>
      have hch : c ≠ h := by
        intro heq; rw [heq] at hnone; rw [hnone] at hl; exact Option.noConfusion hl
      have hcs : c ∈ hs := by
        cases List.mem_cons.mp hc with
        | inl heq => exact absurd heq hch
        | inr hm => exact hm
      have : strictStep entity (.ok acc) h = .ok (acc ++ [v]) := by
        simp [strictStep, Except.bind, hl]
      rw [List.foldl_cons, this]
      exact ih (acc ++ [v]) hcs hnone fun x hx hn =>
        huniq x (List.mem_cons_of_mem h hx) hn

theorem foldl_strictStep_error_mem (entity : Entity) :
    ∀ (cols : List String) (acc : List Scalar) (m : String),
      cols.foldl (strictStep entity) (.ok acc) = .error m →
      m ∈ cols ∧ lookupEntity entity m = Option.none := by
  intro cols
  induction cols with
  | nil => intro acc m h; exact absurd h (by simp [List.foldl_nil])
  | cons h hs ih =>
    intro acc m hf
    cases hl : lookupEntity entity h with
    | none =>
      have hstep : strictStep entity (.ok acc) h = .error h := by
        simp [strictStep, Except.bind, hl]
      rw [List.foldl_cons, hstep, foldl_strictStep_error] at hf
      have hm : m = h := (Except.error.injEq _ _ ▸ hf.symm)
      subst hm
      exact ⟨List.mem_cons_self m hs, hl⟩
    | some v =>
      have hstep : strictStep entity (.ok acc) h = .ok (acc ++ [v]) := by
        simp [strictStep, Except.bind, hl]
      rw [List.foldl_cons, hstep] at hf
      obtain ⟨hm, hn⟩ := ih (acc ++ [v]) m hf
      exact ⟨List.mem_cons_of_mem h hm, hn⟩

theorem foldl_strictStep_exists_error (entity : Entity) (c : String) :
    ∀ (cols : List String) (acc : List Scalar),
      c ∈ cols → lookupEntity entity c = Option.none →
      ∃ m, cols.foldl (strictStep entity) (.ok acc) = .error m := by
  intro cols
  induction cols with
  | nil => intro acc hc _; exact absurd hc (List.not_mem_nil c)
  | cons h hs ih =>
    intro acc hc hnone
    cases hl : lookupEntity entity h with
    | none =>
      have hstep : strictStep entity (.ok acc) h = .error h := by
        simp [strictStep, Except.bind, hl]
      exact ⟨h, by rw [List.foldl_cons, hstep, foldl_strictStep_error]⟩
    | some v =>
      have hch : c ≠ h := by
        intro heq; rw [heq] at hnone; rw [hnone] at hl; exact Option.noConfusion hl
      have hcs : c ∈ hs := by
        cases List.mem_cons.mp hc with
        | inl heq => exact absurd heq hch
        | inr hm => exact hm
      have hstep : strictStep entity (.ok acc) h = .ok (acc ++ [v]) := by
        simp [strictStep, Except.bind, hl]
      obtain ⟨m, hm⟩ := ih (acc ++ [v]) hcs hnone
      exact ⟨m, by rw [List.foldl_cons, hstep]; exact hm⟩

theorem entity2tuple_true_eq_filterMap (entity : Entity) :
    ∀ (cols : List String) (acc : List Scalar),
      cols.foldl
        (fun t c =>
          t ++ (match lookupEntity entity c with
                | some v => [v]
                | Option.none => []))
        acc = acc ++ cols.filterMap (lookupEntity entity) := by
  intro cols
  induction cols with
  | nil => intro acc; simp
  | cons h hs ih =>
    intro acc
    cases hl : lookupEntity entity h with
    | none => simp [List.foldl_cons, hl, ih, List.filterMap_cons]
    | some v => simp [List.foldl_cons, hl, ih, List.filterMap_cons]

theorem filterMap_length_all_present (entity : Entity) :
    ∀ cols : List String,
      (∀ x ∈ cols, (lookupEntity entity x).isSome) →
      (cols.filterMap (lookupEntity entity)).length = cols.length := by
  intro cols
  induction cols with
  | nil => intro _; rfl
  | cons h hs ih =>
    intro hall
    obtain ⟨v, hv⟩ := Option.isSome_iff_exists.mp
      (hall h (List.mem_cons_self h hs))
    simp only [List.filterMap_cons, hv, List.length_cons]
    rw [ih fun x hx => hall x (List.mem_cons_of_mem h hx)]

theorem filterMap_length_one_missing (entity : Entity) (c : String) :
    ∀ cols : List String, cols.Nodup → c ∈ cols →
      lookupEntity entity c = Option.none →
      (∀ x ∈ cols, x ≠ c → (lookupEntity entity x).isSome) →
      (cols.filterMap (lookupEntity entity)).length = cols.length - 1 := by
  intro cols
  induction cols with
  | nil => intro _ hc _ _; exact absurd hc (List.not_mem_nil c)
  | cons h hs ih =>
    intro hnd hc hnone hothers
    have hnd2 := List.nodup_cons.mp hnd
    by_cases heq : h = c
    · subst heq
      simp only [List.filterMap_cons, hnone, List.length_cons]
      rw [filterMap_length_all_present entity hs]
      · omega
      · intro x hx
        refine hothers x (List.mem_cons_of_mem h hx) ?_
        intro hxc
        exact hnd2.1 (hxc ▸ hx)
    · have hcs : c ∈ hs := by
        cases List.mem_cons.mp hc with
        | inl h2 => exact absurd h2.symm heq
        | inr hm => exact hm
      obtain ⟨v, hv⟩ := Option.isSome_iff_exists.mp
        (hothers h (List.mem_cons_self h hs) heq)
      simp only [List.filterMap_cons, hv, List.length_cons]
      rw [ih hnd2.2 hcs hnone
        fun x hx hxc => hothers x (List.mem_cons_of_mem h hx) hxc]
      have : 0 < hs.length := List.length_pos.mpr (List.ne_nil_of_mem hcs)
      omega

theorem mapExcept_error_mem {α β : Type} (f : α → Except String β) :
    ∀ (es : List α) (m : String),
      mapExcept f es = .error m → ∃ e ∈ es, f e = .error m := by
  intro es
  induction es with
  | nil => intro m h; exact absurd h (by simp [mapExcept])
  | cons e es ih =>
    intro m h
    rw [mapExcept] at h
    cases hf : f e with
    | error m2 =>
      rw [hf] at h
      simp only [Except.error.injEq] at h
      exact ⟨e, List.mem_cons_self e es, by rw [hf, h]⟩
    | ok b =>
      rw [hf] at h
      cases hm : mapExcept f es with
      | error m2 =>
        rw [hm] at h
        simp only [Except.error.injEq] at h
        obtain ⟨e2, he2, hfe2⟩ := ih m2 hm
        exact ⟨e2, List.mem_cons_of_mem e he2, h ▸ hfe2⟩
      | ok bs => rw [hm] at h; exact Except.noConfusion h

theorem mapExcept_isError_of_mem {α β : Type} (f : α → Except String β) :
    ∀ (es : List α) (e : α), e ∈ es → (∃ m, f e = .error m) →
      ∃ m2, mapExcept f es = .error m2 := by
  intro es
  induction es with
  | nil => intro e he _; exact absurd he (List.not_mem_nil e)
  | cons h hs ih =>
    intro e he hm
    cases hf : f h with
    | error m2 => exact ⟨m2, by rw [mapExcept, hf]⟩
    | ok b =>
      have hes : e ∈ hs := by
        cases List.mem_cons.mp he with
        | inl heq =>
          obtain ⟨m, hm2⟩ := hm
          rw [heq, hf] at hm2
          exact Except.noConfusion hm2
        | inr h2 => exact h2
      obtain ⟨m2, hm2⟩ := ih e hes hm
      exact ⟨m2, by rw [mapExcept, hf, hm2]⟩

/-! ### Claim theorems about the entity utilities -/

/-- Claim C6: for a duplicate-free column tuple and an entity missing
exactly the column `c`, `entity2tuple` with `incomplete=False` fails with a
`KeyError` carrying `c`, while with `incomplete=True` it succeeds and
returns the values of the present columns in the order dictated by the
columns, one shorter than the column tuple. -/
theorem entity2tuple_one_missing (C : List String) (E : Entity) (c : String)
    (hnd : C.Nodup) (hc : c ∈ C) (hmiss : lookupEntity E c = Option.none)
    (hothers : ∀ x ∈ C, x ≠ c → (lookupEntity E x).isSome) :
    entity2tuple C E false = .error c
  ∧ entity2tuple C E true = .ok (C.filterMap (lookupEntity E))
  ∧ (C.filterMap (lookupEntity E)).length = C.length - 1 := by
  refine ⟨?_, ?_, ?_⟩
  · rw [entity2tuple_false_eq_foldl]
    refine foldl_strictStep_first_missing E c C [] hc hmiss ?_
    intro x hx hn
    by_contra hne
    have := hothers x hx hne
    rw [hn] at this
    exact Bool.noConfusion this
  · show Except.ok _ = _
    rw [entity2tuple_true_eq_filterMap E C []]
    rfl
  · exact filterMap_length_one_missing E c C hnd hc hmiss hothers

/-- Witness for C6: the customer entity missing only `last_name`. -/
theorem entity2tuple_one_missing_witness :
    entity2tuple ["customerid", "email", "first_name", "last_name"]
        [("customerid", Scalar.int 7821),
         ("email", Scalar.str "hjimenez@example.com"),
         ("first_name", Scalar.str "Helena")] false = .error "last_name"
  ∧ entity2tuple ["customerid", "email", "first_name", "last_name"]
        [("customerid", Scalar.int 7821),
         ("email", Scalar.str "hjimenez@example.com"),
         ("first_name", Scalar.str "Helena")] true =
      .ok (["customerid", "email", "first_name", "last_name"].filterMap
        (lookupEntity
          [("customerid", Scalar.int 7821),
           ("email", Scalar.str "hjimenez@example.com"),
           ("first_name", Scalar.str "Helena")]))
  ∧ (["customerid", "email", "first_name", "last_name"].filterMap
        (lookupEntity
          [("customerid", Scalar.int 7821),
           ("email", Scalar.str "hjimenez@example.com"),
           ("first_name", Scalar.str "Helena")])).length =
      ["customerid", "email", "first_name", "last_name"].length - 1 :=
  entity2tuple_one_missing
    ["customerid", "email", "first_name", "last_name"]
    [("customerid", Scalar.int 7821),
     ("email", Scalar.str "hjimenez@example.com"),
     ("first_name", Scalar.str "Helena")]
    "last_name" (by decide) (by decide) (by decide) (by decide)

/-- Claim C7: in a `create_many` call with `use_defaults=False` where some
entity lacks one of the manager's columns, the bind-value preparation
raises the translated `ValueError` naming a specific missing column of the
manager, and `cursor.execute` is never reached. -/
theorem create_many_missing_column_fails (table : String)
    (columns : List String) (entities : List Entity) (returning : Bool)
    (e : Entity) (c : String) (he : e ∈ entities) (hc : c ∈ columns)
    (hmiss : lookupEntity e c = Option.none) :
    ∃ mc, mc ∈ columns
      ∧ (∃ e2 ∈ entities, lookupEntity e2 mc = Option.none)
      ∧ create_many_nodefaults table columns entities returning =
          ⟨some (.valueErrorMissingColumn mc), Option.none⟩ := by
  have hone : ∃ m, entity2tuple columns e false = .error m := by
    rw [entity2tuple_false_eq_foldl]
    exact foldl_strictStep_exists_error e c columns [] hc hmiss
  obtain ⟨m2, hm2⟩ := mapExcept_isError_of_mem
    (fun e2 => entity2tuple columns e2 false) entities e he hone
  obtain ⟨e2, he2, hfe2⟩ := mapExcept_error_mem
    (fun e2 => entity2tuple columns e2 false) entities m2 hm2
  rw [entity2tuple_false_eq_foldl] at hfe2
  obtain ⟨hm2mem, hm2none⟩ := foldl_strictStep_error_mem e2 columns [] m2 hfe2
  refine ⟨m2, hm2mem, ⟨e2, he2, hm2none⟩, ?_⟩
  rw [create_many_nodefaults, hm2]
  simp [hm2mem]

/-- Witness for C7: two columns, one entity missing `name`. -/
theorem create_many_missing_column_fails_witness :
    ∃ mc, mc ∈ ["customerid", "name"]
      ∧ (∃ e2 ∈ [[("customerid", Scalar.int 1)]],
          lookupEntity e2 mc = Option.none)
      ∧ create_many_nodefaults "customer" ["customerid", "name"]
            [[("customerid", Scalar.int 1)]] false =
          ⟨some (.valueErrorMissingColumn mc), Option.none⟩ :=
  create_many_missing_column_fails "customer" ["customerid", "name"]
    [[("customerid", Scalar.int 1)]] false
    [("customerid", Scalar.int 1)] "name"
    (by decide) (by decide) (by decide)

theorem missing_values_step_eq_some (E : Entity)
    (D : List (String × Scalar)) (x c : String) (v : Scalar) :
    ((if lookupEntity E x = Option.none then
        (lookupEntity D x).map fun w => (x, w)
      else Option.none) = some (c, v)) ↔
      (x = c ∧ lookupEntity E x = Option.none
        ∧ lookupEntity D x = some v) := by
  by_cases hE : lookupEntity E x = Option.none
  · rw [if_pos hE]
    cases hD : lookupEntity D x with
    | none => simp [hE]
    | some w => simp [hE, hD]
  · rw [if_neg hE]
    simp [hE]

/-- Claim C9: `missing_values(E, C, D)` collects exactly the pairs
`(c, D[c]())` for the columns of `C` absent from the entity and present in
the provider map; every column whose provider it invokes is absent from
the entity (providers of present columns are never called); and on the
spec's concrete scenario it produces exactly the `b` entry. -/
theorem missing_values_characterization :
    (∀ (E : Entity) (C : List String) (D : List (String × Scalar))
        (c : String) (v : Scalar),
      (c, v) ∈ missing_values E C D ↔
        (c ∈ C ∧ lookupEntity E c = Option.none
          ∧ lookupEntity D c = some v))
  ∧ (∀ (E : Entity) (C : List String) (D : List (String × Scalar)),
      (missing_values_invoked E C D).all
        (fun c => (lookupEntity E c).isNone) = true)
  ∧ missing_values [("a", Scalar.int 1)] ["a", "b", "c"]
      [("b", Scalar.int 2)] = [("b", Scalar.int 2)] := by
  refine ⟨?_, ?_, by decide⟩
  · intro E C D c v
    rw [missing_values, List.mem_filterMap]
    constructor
    · rintro ⟨x, hx, hstep⟩
      obtain ⟨hxc, hE, hD⟩ :=
        (missing_values_step_eq_some E D x c v).mp hstep
      exact ⟨hxc ▸ hx, hxc ▸ hE, hxc ▸ hD⟩
    · rintro ⟨hc, hE, hD⟩
      exact ⟨c, hc,
        (missing_values_step_eq_some E D c c v).mpr ⟨rfl, hE, hD⟩⟩
  · intro E C D
    rw [List.all_eq_true]
    intro c hc
    have hm := List.mem_filter.mp hc
    have hb := hm.2
    simp only [Bool.and_eq_true] at hb
    exact hb.1

/-- Claim C8 evaluated at the failing input: `add_defaults` does merge the
provider-produced values for the absent columns into the entity in place
and leaves the other keys unchanged, but its method body has no `return`
statement, so its return value is `None` rather than the updated entity. -/
theorem add_defaults_returns_none :
    add_defaults ["customerid", "first_name"] [("customerid", Scalar.int 7)]
        [("first_name", Scalar.str "Blanca")] =
      ⟨[("first_name", Scalar.str "Blanca"), ("customerid", Scalar.int 7)],
        Option.none⟩
  ∧ (add_defaults ["customerid", "first_name"]
      [("customerid", Scalar.int 7)]
      [("first_name", Scalar.str "Blanca")]).ret ≠
      some [("first_name", Scalar.str "Blanca"),
        ("customerid", Scalar.int 7)] := by
  exact ⟨by decide, by decide⟩

/-- Claim C2 evaluated at the failing input: with `use_defaults=False` the
`create_many` path converts each entity to its per-row tuple in column
order, but `tuple(itertools.chain(tuple_entities))` leaves the per-row
tuples nested, so `cursor.execute` receives two row tuples for a statement
with four placeholder slots, not the flattened four-element sequence the
spec describes. -/
theorem create_many_nested_bind_values :
    create_many_nodefaults "customer" ["customerid", "name"]
        [[("customerid", Scalar.int 1), ("name", Scalar.str "a")],
         [("customerid", Scalar.int 2), ("name", Scalar.str "b")]] false =
      ⟨Option.none,
        some (insert_many "customer" ["customerid", "name"] 2
            Option.none false,
          [BindVal.row [Scalar.int 1, Scalar.str "a"],
           BindVal.row [Scalar.int 2, Scalar.str "b"]])⟩
  ∧ phCount (insert_many "customer" ["customerid", "name"] 2
      Option.none false) = 4
  ∧ create_many_flattened_values ["customerid", "name"]
        [[("customerid", Scalar.int 1), ("name", Scalar.str "a")],
         [("customerid", Scalar.int 2), ("name", Scalar.str "b")]] =
      .ok [BindVal.scalar (Scalar.int 1), BindVal.scalar (Scalar.str "a"),
        BindVal.scalar (Scalar.int 2), BindVal.scalar (Scalar.str "b")]
  ∧ ([BindVal.row [Scalar.int 1, Scalar.str "a"],
      BindVal.row [Scalar.int 2, Scalar.str "b"]] :
        List BindVal) ≠
      [BindVal.scalar (Scalar.int 1), BindVal.scalar (Scalar.str "a"),
       BindVal.scalar (Scalar.int 2), BindVal.scalar (Scalar.str "b")] := by
  exact ⟨by decide, by decide, by rfl, by decide⟩

end C4P
